import Mathlib

/-!
Verification of the crypto-signal bot's core logic (`crytopay.py`): the
subscription/payment state machine, the two periodic reconciliation jobs
(price alerts and signal-outcome resolution), and the ownership-scoped
row deletions.

Modelling conventions:
* Prices are IEEE doubles in the source; the jobs only *compare* them
  (no arithmetic), so we model them as `ℚ`, on which the order agrees
  with the double order for representable values.
* SQL timestamps (`datetime(...)` comparisons) are modelled as `Int`
  seconds; `timedelta(days=d)` is `d * 86400`.
* A table is a `List` of row structures mirroring the schema of
  `_create_tables`; `id` columns are `AUTOINCREMENT PRIMARY KEY`
  (unique), which theorems carry as a `Nodup` hypothesis on the ids.
* The batched price fetch returns a mapping that may omit symbols; we
  model it as `String → Option ℚ`.
* Whether a Telegram `send_message` call succeeds is external
  nondeterminism; jobs take it as a parameter `sendOk : Nat → Bool`
  keyed by the alert row id (each alert is notified at most once per
  run).
-/

/-- Row of the `subscriptions` table: `user_id INTEGER PRIMARY KEY`,
`tier`, `start_date`, `end_date`, `payment_id`, `notified` (default 0). -/
structure SubRow where
  user_id : Int
  tier : String
  start_date : Int
  end_date : Int
  payment_id : String
  notified : Bool
deriving DecidableEq, Repr

/-- Row of the `payments` table (the `id` and `created_at` columns are
never read by the code under verification and are omitted). -/
structure PayRow where
  user_id : Int
  amount : ℚ
  status : String
  payment_id : String
  plan : String
deriving DecidableEq, Repr

/-- Row of the `signals` table. `hit_target` is the source's encoding:
`0` = active/open, `1` = hit target (TP), `-1` = hit stop (SL). -/
structure SignalRow where
  id : Nat
  pair : String
  direction : String
  entry_price : ℚ
  target_price : ℚ
  stop_loss : ℚ
  is_vip : Bool
  hit_target : Int
deriving DecidableEq, Repr

/-- Row of the `alerts` table. -/
structure AlertRow where
  id : Nat
  user_id : Int
  symbol : String
  target_price : ℚ
  direction : String
deriving DecidableEq, Repr

/-- Row of the `portfolio` table. -/
structure PositionRow where
  id : Nat
  user_id : Int
  symbol : String
  amount : ℚ
  entry_price : ℚ
deriving DecidableEq, Repr

/-! ## Signal-outcome reconciliation job (`check_signal_outcomes`) -/

/-- Per-signal outcome computation of `check_signal_outcomes`:
`hit_status = 0`; for `long`, `price >= target_price` gives `1`,
`elif price <= stop_loss` gives `-1`; for `short`, `price <=
target_price` gives `1`, `elif price >= stop_loss` gives `-1`. -/
def resolveSignal (direction : String) (target_price stop_loss current_price : ℚ) : Int :=
  if direction = "long" then
    if current_price ≥ target_price then 1
    else if current_price ≤ stop_loss then -1
    else 0
  else if direction = "short" then
    if current_price ≤ target_price then 1
    else if current_price ≥ stop_loss then -1
    else 0
  else 0

/-- `UPDATE signals SET hit_target = h WHERE id = i`. -/
def setOutcome (signals : List SignalRow) (i : Nat) (h : Int) : List SignalRow :=
  signals.map fun s => if s.id = i then { s with hit_target := h } else s

/-- One iteration of the `for signal in active_signals` loop: skip the
signal (`continue`) when its pair is absent from the fetched batch,
otherwise compute `hit_status` and, when non-zero, write it back. -/
def signalJobStep (prices : String → Option ℚ) (signals : List SignalRow)
    (s : SignalRow) : List SignalRow :=
  match prices s.pair with
  | none => signals
  | some current_price =>
      let hit_status := resolveSignal s.direction s.target_price s.stop_loss current_price
      if hit_status ≠ 0 then setOutcome signals s.id hit_status else signals

/-- The `check_signal_outcomes` job: read the open signals
(`SELECT ... WHERE hit_target = 0`), then iterate the loop body over
that snapshot, updating the table. -/
def check_signal_outcomes (prices : String → Option ℚ)
    (signals : List SignalRow) : List SignalRow :=
  (signals.filter fun s => s.hit_target = 0).foldl (signalJobStep prices) signals

/-- The outcome the loop body would write for `s` (`0` when the pair is
missing from the batch, since then no write happens). -/
def sigOutcome (prices : String → Option ℚ) (s : SignalRow) : Int :=
  match prices s.pair with
  | none => 0
  | some current_price => resolveSignal s.direction s.target_price s.stop_loss current_price

/-! ## Alert reconciliation job (`check_alerts`) -/

/-- Result of one run of `check_alerts`: the table after the run, the
ids of alerts for which a notification was attempted (condition
`triggered`), and the ids for which delivery succeeded (after which the
row is deleted). The notification itself goes to the row's `user_id`. -/
structure AlertRunResult where
  alerts : List AlertRow
  attempted : List Nat
  delivered : List Nat
deriving DecidableEq, Repr

/-- The `triggered` computation of `check_alerts`:
`triggered = False`; `if direction == 'above' and current_price >
target_price: triggered = True`; `elif direction == 'below' and
current_price < target_price: triggered = True`. -/
def alertTriggered (a : AlertRow) (current_price : ℚ) : Bool :=
  if a.direction = "above" ∧ current_price > a.target_price then true
  else if a.direction = "below" ∧ current_price < a.target_price then true
  else false

/-- `DELETE FROM alerts WHERE id = i`. -/
def deleteAlertRow (alerts : List AlertRow) (i : Nat) : List AlertRow :=
  alerts.filter fun x => x.id ≠ i

/-- One iteration of the `for alert in alerts` loop: skip when the
symbol is absent from the batch; when triggered, try to send the
notification and, only if that succeeds, delete the row (the `DELETE`
sits after `send_message` inside the same `try`, so a raising send
skips it). -/
def check_alerts_step (prices : String → Option ℚ) (sendOk : Nat → Bool)
    (st : AlertRunResult) (a : AlertRow) : AlertRunResult :=
  match prices a.symbol with
  | none => st
  | some current_price =>
      if alertTriggered a current_price then
        if sendOk a.id then
          { alerts := deleteAlertRow st.alerts a.id
            attempted := st.attempted ++ [a.id]
            delivered := st.delivered ++ [a.id] }
        else
          { st with attempted := st.attempted ++ [a.id] }
      else st

/-- The `check_alerts` job: read all alert rows, then iterate the loop
body over that snapshot. -/
def check_alerts (prices : String → Option ℚ) (sendOk : Nat → Bool)
    (alerts : List AlertRow) : AlertRunResult :=
  alerts.foldl (check_alerts_step prices sendOk) ⟨alerts, [], []⟩

/-- Whether the loop body fires for alert `a` under the fetched batch:
its symbol has a price and the `triggered` condition holds. -/
def alertFires (prices : String → Option ℚ) (a : AlertRow) : Bool :=
  match prices a.symbol with
  | none => false
  | some current_price => alertTriggered a current_price

/-! ## Entitlement (`_check_vip_status`) -/

/-- `_check_vip_status(user_id)`: `if user_id in ADMIN_IDS: return
True`; otherwise `SELECT 1 FROM subscriptions WHERE user_id = ? AND
datetime(end_date) >= datetime('now')` and return whether a row was
found. The function executes only this one `SELECT` (no write), which
the embedding reflects by consuming the table and returning a `Bool`. -/
def check_vip_status (admin_ids : List Int) (subscriptions : List SubRow)
    (now : Int) (user_id : Int) : Bool :=
  if user_id ∈ admin_ids then true
  else subscriptions.any fun r => decide (r.user_id = user_id ∧ now ≤ r.end_date)

/-! ## Subscription writes -/

/-- `INSERT OR REPLACE INTO subscriptions ...` with `user_id` the
primary key: SQLite deletes any conflicting row and inserts the new
one. -/
def upsertSubscription (subscriptions : List SubRow) (r : SubRow) : List SubRow :=
  (subscriptions.filter fun x => x.user_id ≠ r.user_id) ++ [r]

/-- `UPDATE subscriptions SET notified = 1 WHERE user_id = u`
(from `check_subscription_expirations`). -/
def set_notified (subscriptions : List SubRow) (u : Int) : List SubRow :=
  subscriptions.map fun r => if r.user_id = u then { r with notified := true } else r

/-- The two tables touched by the payment/grant paths. -/
structure DB where
  subscriptions : List SubRow
  payments : List PayRow
deriving DecidableEq, Repr

/-- `/vipgrant` handler `vip_grant`: `start_date = now`, `end_date =
start_date + timedelta(days=days)`, then `INSERT OR REPLACE INTO
subscriptions` with tier `"VIP Grant"` and the synthetic payment
reference `"admin_grant"`; no row is written to `payments`. -/
def vip_grant (now : Int) (user_id : Int) (days : Int) (db : DB) : DB :=
  let start_date := now
  let end_date := start_date + days * 86400
  let r : SubRow := ⟨user_id, "VIP Grant", start_date, end_date, "admin_grant", false⟩
  { db with subscriptions := upsertSubscription db.subscriptions r }

/-! ## Payment confirmation (`_check_payment_status`) -/

/-- State of the process-wide shared sqlite3 connection (`self.conn`).
Python's sqlite3 in its default deferred-transaction mode applies each
`execute` to the connection's open transaction: those writes are seen
by every later read on the same connection, and become durable at the
next `commit()` — whichever handler issues it. Nothing rolls back
automatically when an exception is caught. `durable` is the committed
database file; `view` is what reads on this connection see. -/
structure Conn where
  durable : DB
  view : DB
deriving DecidableEq, Repr

/-- `self.conn.commit()`. -/
def connCommit (c : Conn) : Conn := { durable := c.view, view := c.view }

/-- Where (if anywhere) the store fails during the paid-invoice branch
of `_check_payment_status`. -/
inductive WriteFailure where
  | succeed
  | atSubscriptionWrite
  | atPaymentWrite
  | atCommit
deriving DecidableEq, Repr

/-- `cursor.execute("INSERT OR REPLACE INTO subscriptions ...")` on the
shared connection. -/
def execSubscriptionUpsert (c : Conn) (r : SubRow) : Conn :=
  { c with view := { c.view with subscriptions := upsertSubscription c.view.subscriptions r } }

/-- `cursor.execute("INSERT INTO payments ...")` on the shared
connection. -/
def execPaymentInsert (c : Conn) (r : PayRow) : Conn :=
  { c with view := { c.view with payments := c.view.payments ++ [r] } }

/-- The paid-invoice branch of `_check_payment_status`: upsert the
Subscription row, insert the completed Payment row, `commit()`. The
`except` branch only logs and messages the user — it performs no
`rollback()`, so on failure the connection is returned exactly as the
exception left it. Returns the connection and whether the success
message was reached. -/
def check_payment_status (now : Int) (user_id : Int) (description plan : String)
    (amount : ℚ) (invoice_id : String) (durationSecs : Int)
    (f : WriteFailure) (c : Conn) : Conn × Bool :=
  let start_date := now
  let end_date := start_date + durationSecs
  let subRow : SubRow := ⟨user_id, description, start_date, end_date, invoice_id, false⟩
  let payRow : PayRow := ⟨user_id, amount, "completed", invoice_id, plan⟩
  match f with
  | .atSubscriptionWrite => (c, false)
  | .atPaymentWrite => (execSubscriptionUpsert c subRow, false)
  | .atCommit => (execPaymentInsert (execSubscriptionUpsert c subRow) payRow, false)
  | .succeed => (connCommit (execPaymentInsert (execSubscriptionUpsert c subRow) payRow), true)

/-! ## Ownership-scoped deletes (`remove_position`, `remove_alert`) -/

/-- `/removeposition` handler core: `DELETE FROM portfolio WHERE id =
? AND user_id = ?`, then report success iff `cursor.rowcount > 0`. -/
def remove_position (portfolio : List PositionRow) (user_id : Int) (pos_id : Nat) :
    List PositionRow × Bool :=
  let rowcount := portfolio.countP fun r => decide (r.id = pos_id ∧ r.user_id = user_id)
  (portfolio.filter fun r => ¬(r.id = pos_id ∧ r.user_id = user_id), decide (0 < rowcount))

/-- `/removealert` handler core: `DELETE FROM alerts WHERE id = ? AND
user_id = ?`, then report success iff `cursor.rowcount > 0`. -/
def remove_alert (alerts : List AlertRow) (user_id : Int) (alert_id : Nat) :
    List AlertRow × Bool :=
  let rowcount := alerts.countP fun r => decide (r.id = alert_id ∧ r.user_id = user_id)
  (alerts.filter fun r => ¬(r.id = alert_id ∧ r.user_id = user_id), decide (0 < rowcount))

/-- Concrete failing execution for the atomicity analysis: user 42 pays
invoice id "inv100" for the 1-month plan (2592000 s) at time 0, and the
`payments` INSERT raises after the `subscriptions` INSERT OR REPLACE
already executed on the shared connection (initially empty). -/
def c1FailedRun : Conn × Bool :=
  check_payment_status 0 42 "1 Month VIP" "vip_1month" 20 "inv100" 2592000
    WriteFailure.atPaymentWrite ⟨⟨[], []⟩, ⟨[], []⟩⟩

/-! ## Helper lemmas: the signal job in closed form -/

/-- The row-update that one whole run of the loop applies to a row `x`,
given the snapshot `l` of open signals the loop iterates over: the
first (under unique ids: the only) iterated signal sharing `x`'s id
decides the write. -/
def applyResolved (prices : String → Option ℚ) (l : List SignalRow)
    (x : SignalRow) : SignalRow :=
  match l.find? (fun b => b.id == x.id) with
  | some b => if sigOutcome prices b ≠ 0 then { x with hit_target := sigOutcome prices b } else x
  | none => x

theorem signalJobStep_eq (prices : String → Option ℚ) (sigs : List SignalRow)
    (s : SignalRow) :
    signalJobStep prices sigs s =
      if sigOutcome prices s ≠ 0 then setOutcome sigs s.id (sigOutcome prices s) else sigs := by
  unfold signalJobStep sigOutcome
  cases prices s.pair <;> simp

theorem applyResolved_id (prices : String → Option ℚ) (l : List SignalRow)
    (x : SignalRow) : (applyResolved prices l x).id = x.id := by
  unfold applyResolved
  cases l.find? (fun b => b.id == x.id) <;> simp
  split <;> rfl

theorem find?_signal_id_eq_none (l : List SignalRow) (i : Nat)
    (h : i ∉ l.map SignalRow.id) : l.find? (fun c => c.id == i) = none := by
  rw [List.find?_eq_none]
  intro c hc hcid
  exact h (by rw [← (by simpa using hcid : c.id = i)]
              exact List.mem_map_of_mem SignalRow.id hc)

theorem applyResolved_of_not_mem (prices : String → Option ℚ) (l : List SignalRow)
    (y : SignalRow) (h : y.id ∉ l.map SignalRow.id) : applyResolved prices l y = y := by
  simp [applyResolved, find?_signal_id_eq_none l y.id h]

theorem applyResolved_cons_self (prices : String → Option ℚ) (b : SignalRow)
    (l : List SignalRow) (x : SignalRow) (hid : b.id = x.id) :
    applyResolved prices (b :: l) x =
      if sigOutcome prices b ≠ 0 then { x with hit_target := sigOutcome prices b } else x := by
  have hbx : (b.id == x.id) = true := by simpa using hid
  simp [applyResolved, List.find?_cons, hbx]

theorem applyResolved_cons_other (prices : String → Option ℚ) (b : SignalRow)
    (l : List SignalRow) (x : SignalRow) (hid : b.id ≠ x.id) :
    applyResolved prices (b :: l) x = applyResolved prices l x := by
  have hbx : (b.id == x.id) = false := by simpa using hid
  simp [applyResolved, List.find?_cons, hbx]

theorem applyResolved_cons (prices : String → Option ℚ) (b : SignalRow)
    (l : List SignalRow) (x : SignalRow) (hb : b.id ∉ l.map SignalRow.id) :
    applyResolved prices (b :: l) x =
      applyResolved prices l
        (if sigOutcome prices b ≠ 0 then
          (if x.id = b.id then { x with hit_target := sigOutcome prices b } else x)
         else x) := by
  by_cases hid : b.id = x.id
  · have hxb : x.id = b.id := hid.symm
    have hy : (if sigOutcome prices b ≠ 0 then
          (if x.id = b.id then { x with hit_target := sigOutcome prices b } else x)
         else x)
        = if sigOutcome prices b ≠ 0 then { x with hit_target := sigOutcome prices b } else x := by
      by_cases hout : sigOutcome prices b = 0 <;> simp [hout, hxb]
    rw [hy, applyResolved_cons_self prices b l x hid]
    refine (applyResolved_of_not_mem prices l _ ?_).symm
    have hyid : (if sigOutcome prices b ≠ 0 then
        { x with hit_target := sigOutcome prices b } else x).id = x.id := by
      split <;> rfl
    rw [hyid, ← hid]
    exact hb
  · have hupd : (if sigOutcome prices b ≠ 0 then
          (if x.id = b.id then { x with hit_target := sigOutcome prices b } else x)
         else x) = x := by
      have hxb : ¬ x.id = b.id := fun h => hid h.symm
      by_cases hout : sigOutcome prices b = 0 <;> simp [hout, hxb]
    rw [hupd]
    exact applyResolved_cons_other prices b l x hid

theorem foldl_signalJobStep (prices : String → Option ℚ) :
    ∀ (l acc : List SignalRow), (l.map SignalRow.id).Nodup →
      l.foldl (signalJobStep prices) acc = acc.map (applyResolved prices l) := by
  intro l
  induction l with
  | nil =>
    intro acc _
    rw [List.foldl_nil]
    have hmap : acc.map (applyResolved prices []) = acc.map (fun x => x) :=
      List.map_congr_left (fun x _ => applyResolved_of_not_mem prices [] x (by simp))
    rw [hmap, List.map_id']
  | cons b l ih =>
    intro acc hnd
    rw [List.map_cons, List.nodup_cons] at hnd
    obtain ⟨hb, hl⟩ := hnd
    rw [List.foldl_cons, ih _ hl, signalJobStep_eq]
    by_cases hout : sigOutcome prices b ≠ 0
    · rw [if_pos hout]
      unfold setOutcome
      rw [List.map_map]
      refine List.map_congr_left ?_
      intro x _
      rw [applyResolved_cons prices b l x hb, if_pos hout]
      rfl
    · rw [if_neg hout]
      refine List.map_congr_left ?_
      intro x _
      rw [applyResolved_cons prices b l x hb, if_neg hout]

theorem check_signal_outcomes_closed (prices : String → Option ℚ)
    (sigs : List SignalRow) (h : (sigs.map SignalRow.id).Nodup) :
    check_signal_outcomes prices sigs =
      sigs.map (applyResolved prices (sigs.filter fun s => s.hit_target = 0)) := by
  unfold check_signal_outcomes
  exact foldl_signalJobStep prices _ sigs
    (List.Nodup.sublist (List.Sublist.map SignalRow.id (List.filter_sublist sigs)) h)

theorem find?_openFilter_of_open (sigs : List SignalRow) (x : SignalRow)
    (hnd : (sigs.map SignalRow.id).Nodup) (hx : x ∈ sigs) (hopen : x.hit_target = 0) :
    (sigs.filter fun s => s.hit_target = 0).find? (fun b => b.id == x.id) = some x := by
  cases hf : (sigs.filter fun s => s.hit_target = 0).find? (fun b => b.id == x.id) with
  | none =>
    exfalso
    have hxf : x ∈ sigs.filter fun s => s.hit_target = 0 :=
      List.mem_filter.mpr ⟨hx, by simp [hopen]⟩
    have := List.find?_eq_none.mp hf x hxf
    simp at this
  | some b =>
    have hbmem := List.mem_of_find?_eq_some hf
    have hbid : b.id = x.id := by simpa using List.find?_some hf
    have := List.inj_on_of_nodup_map hnd (List.mem_filter.mp hbmem).1 hx hbid
    rw [this]

theorem find?_openFilter_of_terminal (sigs : List SignalRow) (x : SignalRow)
    (hnd : (sigs.map SignalRow.id).Nodup) (hx : x ∈ sigs) (hterm : x.hit_target ≠ 0) :
    (sigs.filter fun s => s.hit_target = 0).find? (fun b => b.id == x.id) = none := by
  rw [List.find?_eq_none]
  intro b hb hbid
  have hbs := List.mem_filter.mp hb
  have hbx : b = x :=
    List.inj_on_of_nodup_map hnd hbs.1 hx (by simpa using hbid)
  apply hterm
  rw [← hbx]
  simpa using hbs.2

theorem applyResolved_member_open (prices : String → Option ℚ) (sigs : List SignalRow)
    (x : SignalRow) (hnd : (sigs.map SignalRow.id).Nodup) (hx : x ∈ sigs)
    (hopen : x.hit_target = 0) :
    applyResolved prices (sigs.filter fun s => s.hit_target = 0) x =
      if sigOutcome prices x ≠ 0 then { x with hit_target := sigOutcome prices x } else x := by
  simp [applyResolved, find?_openFilter_of_open sigs x hnd hx hopen]

theorem applyResolved_member_terminal (prices : String → Option ℚ) (sigs : List SignalRow)
    (x : SignalRow) (hnd : (sigs.map SignalRow.id).Nodup) (hx : x ∈ sigs)
    (hterm : x.hit_target ≠ 0) :
    applyResolved prices (sigs.filter fun s => s.hit_target = 0) x = x := by
  simp [applyResolved, find?_openFilter_of_terminal sigs x hnd hx hterm]

theorem filter_signal_id_singleton (t : SignalRow) :
    ∀ (sigs : List SignalRow), (sigs.map SignalRow.id).Nodup → t ∈ sigs →
      sigs.filter (fun b => b.id = t.id) = [t] := by
  intro sigs
  induction sigs with
  | nil => intro _ ht; exact absurd ht (List.not_mem_nil t)
  | cons a l ih =>
    intro hnd ht
    rw [List.map_cons, List.nodup_cons] at hnd
    obtain ⟨ha, hl⟩ := hnd
    rcases List.mem_cons.mp ht with rfl | htl
    · have hnil : l.filter (fun b => decide (b.id = t.id)) = [] := by
        rw [List.filter_eq_nil_iff]
        intro b hbl hb
        exact ha (by rw [← (by simpa using hb : b.id = t.id)]
                     exact List.mem_map_of_mem SignalRow.id hbl)
      simp [List.filter_cons, hnil]
    · have hat : ¬ (a.id = t.id) := by
        intro he
        exact ha (he ▸ List.mem_map_of_mem SignalRow.id htl)
      simp [List.filter_cons, hat]
      exact ih hl htl

/-! ## Helper lemmas: the alert job in closed form -/

theorem foldl_alerts_attempted (prices : String → Option ℚ) (sendOk : Nat → Bool) :
    ∀ (l : List AlertRow) (st : AlertRunResult),
      (l.foldl (check_alerts_step prices sendOk) st).attempted =
        st.attempted ++ (l.filter (alertFires prices)).map AlertRow.id := by
  intro l
  induction l with
  | nil => intro st; simp
  | cons a l ih =>
    intro st
    rw [List.foldl_cons, ih]
    cases hp : prices a.symbol with
    | none =>
      have hf : alertFires prices a = false := by simp [alertFires, hp]
      simp [check_alerts_step, hp, List.filter_cons, hf]
    | some q =>
      cases ht : alertTriggered a q with
      | false =>
        have hf : alertFires prices a = false := by simp [alertFires, hp, ht]
        simp [check_alerts_step, hp, ht, List.filter_cons, hf]
      | true =>
        have hf : alertFires prices a = true := by simp [alertFires, hp, ht]
        cases hok : sendOk a.id with
        | true => simp [check_alerts_step, hp, ht, hok, List.filter_cons, hf]
        | false => simp [check_alerts_step, hp, ht, hok, List.filter_cons, hf]

theorem foldl_alerts_delivered (prices : String → Option ℚ) (sendOk : Nat → Bool) :
    ∀ (l : List AlertRow) (st : AlertRunResult),
      (l.foldl (check_alerts_step prices sendOk) st).delivered =
        st.delivered ++ (l.filter (fun b => alertFires prices b && sendOk b.id)).map AlertRow.id := by
  intro l
  induction l with
  | nil => intro st; simp
  | cons a l ih =>
    intro st
    rw [List.foldl_cons, ih]
    cases hp : prices a.symbol with
    | none =>
      have hf : alertFires prices a = false := by simp [alertFires, hp]
      simp [check_alerts_step, hp, List.filter_cons, hf]
    | some q =>
      cases ht : alertTriggered a q with
      | false =>
        have hf : alertFires prices a = false := by simp [alertFires, hp, ht]
        simp [check_alerts_step, hp, ht, List.filter_cons, hf]
      | true =>
        have hf : alertFires prices a = true := by simp [alertFires, hp, ht]
        cases hok : sendOk a.id with
        | true => simp [check_alerts_step, hp, ht, hok, List.filter_cons, hf]
        | false => simp [check_alerts_step, hp, ht, hok, List.filter_cons, hf]

theorem foldl_alerts_mem_table (prices : String → Option ℚ) (sendOk : Nat → Bool) :
    ∀ (l : List AlertRow) (st : AlertRunResult) (x : AlertRow),
      x ∈ (l.foldl (check_alerts_step prices sendOk) st).alerts ↔
        x ∈ st.alerts ∧
          ∀ b ∈ l, alertFires prices b = true → sendOk b.id = true → x.id ≠ b.id := by
  intro l
  induction l with
  | nil => intro st x; simp
  | cons a l ih =>
    intro st x
    rw [List.foldl_cons, ih]
    cases hp : prices a.symbol with
    | none =>
      have hf : alertFires prices a = false := by simp [alertFires, hp]
      simp only [check_alerts_step, hp, List.forall_mem_cons, hf]
      tauto
    | some q =>
      cases ht : alertTriggered a q with
      | false =>
        have hf : alertFires prices a = false := by simp [alertFires, hp, ht]
        simp only [check_alerts_step, hp, ht, List.forall_mem_cons, hf]
        simp
      | true =>
        have hf : alertFires prices a = true := by simp [alertFires, hp, ht]
        cases hok : sendOk a.id with
        | true =>
          simp only [check_alerts_step, hp, ht, hok, List.forall_mem_cons, hf,
            deleteAlertRow, List.mem_filter]
          simp
          tauto
        | false =>
          simp only [check_alerts_step, hp, ht, hok, List.forall_mem_cons, hf]
          simp

theorem alert_id_mem_filter_map (al : List AlertRow) (a : AlertRow) (p : AlertRow → Bool)
    (hnd : (al.map AlertRow.id).Nodup) (ha : a ∈ al) :
    a.id ∈ (al.filter p).map AlertRow.id ↔ p a = true := by
  constructor
  · intro h
    obtain ⟨b, hb, hbid⟩ := List.mem_map.mp h
    have hbf := List.mem_filter.mp hb
    have hba : b = a := List.inj_on_of_nodup_map hnd hbf.1 ha hbid
    exact hba ▸ hbf.2
  · intro h
    exact List.mem_map_of_mem AlertRow.id (List.mem_filter.mpr ⟨ha, h⟩)

/-! ## Helper lemmas: comparison semantics -/

theorem resolveSignal_long (t st p : ℚ) :
    (resolveSignal "long" t st p = 1 ↔ t ≤ p) ∧
    (resolveSignal "long" t st p = -1 ↔ p < t ∧ p ≤ st) ∧
    (resolveSignal "long" t st p = 0 ↔ p < t ∧ st < p) := by
  unfold resolveSignal
  rw [if_pos rfl]
  split_ifs with h1 h2
  · refine ⟨by simp [h1], ?_, ?_⟩
    · constructor
      · intro h; exact absurd h (by decide)
      · intro h; exact absurd h1 (not_le.mpr h.1)
    · constructor
      · intro h; exact absurd h (by decide)
      · intro h; exact absurd h1 (not_le.mpr h.1)
  · refine ⟨?_, by simp [lt_of_not_le h1, h2], ?_⟩
    · constructor
      · intro h; exact absurd h (by decide)
      · intro h; exact absurd h h1
    · constructor
      · intro h; exact absurd h (by decide)
      · intro h; exact absurd h.2 (not_lt.mpr h2)
  · refine ⟨?_, ?_, by simp [lt_of_not_le h1, lt_of_not_le h2]⟩
    · constructor
      · intro h; exact absurd h (by decide)
      · intro h; exact absurd h h1
    · constructor
      · intro h; exact absurd h (by decide)
      · intro h; exact absurd h.2 h2

theorem resolveSignal_short (t st p : ℚ) :
    (resolveSignal "short" t st p = 1 ↔ p ≤ t) ∧
    (resolveSignal "short" t st p = -1 ↔ t < p ∧ st ≤ p) ∧
    (resolveSignal "short" t st p = 0 ↔ t < p ∧ p < st) := by
  unfold resolveSignal
  rw [if_neg (by decide), if_pos rfl]
  split_ifs with h1 h2
  · refine ⟨by simp [h1], ?_, ?_⟩
    · constructor
      · intro h; exact absurd h (by decide)
      · intro h; exact absurd h1 (not_le.mpr h.1)
    · constructor
      · intro h; exact absurd h (by decide)
      · intro h; exact absurd h1 (not_le.mpr h.1)
  · refine ⟨?_, by simp [lt_of_not_le h1, h2], ?_⟩
    · constructor
      · intro h; exact absurd h (by decide)
      · intro h; exact absurd h h1
    · constructor
      · intro h; exact absurd h (by decide)
      · intro h; exact absurd h.2 (not_lt.mpr h2)
  · refine ⟨?_, ?_, by simp [lt_of_not_le h1, lt_of_not_le h2]⟩
    · constructor
      · intro h; exact absurd h (by decide)
      · intro h; exact absurd h h1
    · constructor
      · intro h; exact absurd h (by decide)
      · intro h; exact absurd h.2 h2

theorem alertTriggered_iff (a : AlertRow) (p : ℚ) :
    alertTriggered a p = true ↔
      (a.direction = "above" ∧ a.target_price < p) ∨
      (a.direction = "below" ∧ p < a.target_price) := by
  unfold alertTriggered
  split_ifs with h1 h2
  · exact ⟨fun _ => Or.inl h1, fun _ => rfl⟩
  · exact ⟨fun _ => Or.inr h2, fun _ => rfl⟩
  · constructor
    · intro h; exact absurd h (by decide)
    · rintro (h | h)
      · exact absurd h h1
      · exact absurd h h2

/-! ## Helper lemmas: subscription writes and row framing -/

theorem upsertSubscription_self (subs : List SubRow) (r : SubRow) :
    (upsertSubscription subs r).filter (fun x => x.user_id = r.user_id) = [r] := by
  unfold upsertSubscription
  rw [List.filter_append]
  have h1 : (subs.filter fun x => x.user_id ≠ r.user_id).filter
      (fun x => decide (x.user_id = r.user_id)) = [] := by
    rw [List.filter_eq_nil_iff]
    intro b hb
    have hne := (List.mem_filter.mp hb).2
    simp at hne ⊢
    exact hne
  rw [h1]
  simp

theorem upsertSubscription_nodup (subs : List SubRow) (r : SubRow)
    (h : (subs.map SubRow.user_id).Nodup) :
    ((upsertSubscription subs r).map SubRow.user_id).Nodup := by
  unfold upsertSubscription
  rw [List.map_append]
  refine List.Nodup.append ?_ (by simp) ?_
  · exact List.Nodup.sublist (List.Sublist.map SubRow.user_id (List.filter_sublist subs)) h
  · rw [List.map_singleton, List.disjoint_singleton]
    intro hmem
    obtain ⟨b, hb, hbid⟩ := List.mem_map.mp hmem
    have := (List.mem_filter.mp hb).2
    simp [hbid] at this

theorem set_notified_map_uid (subs : List SubRow) (u : Int) :
    (set_notified subs u).map SubRow.user_id = subs.map SubRow.user_id := by
  unfold set_notified
  rw [List.map_map]
  refine List.map_congr_left ?_
  intro x _
  by_cases h : x.user_id = u <;> simp [h]

theorem signalRow_eta (x : SignalRow) (h : Int) (hh : x.hit_target = h) :
    ({ x with hit_target := h } : SignalRow) = x := by
  cases x
  simp at hh
  rw [hh]

theorem check_signal_outcomes_filter_id (prices : String → Option ℚ)
    (sigs : List SignalRow) (i : Nat) (hnd : (sigs.map SignalRow.id).Nodup) :
    (check_signal_outcomes prices sigs).filter (fun b => b.id = i) =
      (sigs.filter (fun b => b.id = i)).map
        (applyResolved prices (sigs.filter fun s => s.hit_target = 0)) := by
  rw [check_signal_outcomes_closed prices sigs hnd, List.filter_map]
  congr 1
  refine List.filter_congr ?_
  intro b _
  simp [Function.comp, applyResolved_id]

/-! ## Claim theorems -/

/-- Claim C1 (code bug): the claim demands that the Subscription upsert
and the completed-Payment insert be atomic — after a failed store write
neither row may be visible. The code has no `rollback()` in its
`except` branch, so when the `payments` INSERT fails after the
`subscriptions` INSERT OR REPLACE executed, the new Subscription row
stays in the shared connection's open transaction: it is visible to
every later read on that connection (`_check_vip_status` reports the
user entitled), there is no Payment row, and the next `commit()` issued
anywhere on the shared connection makes the orphan Subscription row
durable. -/
theorem confirm_payment_partial_write_visible :
    c1FailedRun.2 = false ∧
    check_vip_status [] c1FailedRun.1.view.subscriptions 0 42 = true ∧
    c1FailedRun.1.view.payments = [] ∧
    c1FailedRun.1.durable.subscriptions = [] ∧
    (connCommit c1FailedRun.1).durable.subscriptions ≠ [] ∧
    (connCommit c1FailedRun.1).durable.payments = [] := by
  decide

/-- Claim C2: for an open signal whose pair has a fetched price, one run
of `check_signal_outcomes` rewrites exactly its row with the outcome of
`resolveSignal`, whose value satisfies: long — hit-target (1) iff
price ≥ target, hit-stop (-1) iff price < target and price ≤ stop,
stays open (0) iff strictly between; short — mirrored; since hit-target
is characterised by the target comparison alone, the target takes
priority when both conditions hold. -/
theorem signal_resolution_rule (prices : String → Option ℚ) (sigs : List SignalRow)
    (x : SignalRow) (q : ℚ) (hnd : (sigs.map SignalRow.id).Nodup) (hx : x ∈ sigs)
    (hopen : x.hit_target = 0) (hq : prices x.pair = some q) :
    ((check_signal_outcomes prices sigs).filter (fun b => b.id = x.id) =
      [{ x with hit_target := resolveSignal x.direction x.target_price x.stop_loss q }]) ∧
    (x.direction = "long" →
      ((resolveSignal x.direction x.target_price x.stop_loss q = 1 ↔ x.target_price ≤ q) ∧
       (resolveSignal x.direction x.target_price x.stop_loss q = -1 ↔
          q < x.target_price ∧ q ≤ x.stop_loss) ∧
       (resolveSignal x.direction x.target_price x.stop_loss q = 0 ↔
          q < x.target_price ∧ x.stop_loss < q))) ∧
    (x.direction = "short" →
      ((resolveSignal x.direction x.target_price x.stop_loss q = 1 ↔ q ≤ x.target_price) ∧
       (resolveSignal x.direction x.target_price x.stop_loss q = -1 ↔
          x.target_price < q ∧ x.stop_loss ≤ q) ∧
       (resolveSignal x.direction x.target_price x.stop_loss q = 0 ↔
          x.target_price < q ∧ q < x.stop_loss))) := by
  refine ⟨?_, ?_, ?_⟩
  · rw [check_signal_outcomes_filter_id prices sigs x.id hnd,
        filter_signal_id_singleton x sigs hnd hx]
    simp only [List.map_cons, List.map_nil]
    rw [applyResolved_member_open prices sigs x hnd hx hopen]
    have hsig : sigOutcome prices x = resolveSignal x.direction x.target_price x.stop_loss q := by
      unfold sigOutcome
      rw [hq]
    rw [hsig]
    by_cases h0 : resolveSignal x.direction x.target_price x.stop_loss q ≠ 0
    · rw [if_pos h0]
    · rw [if_neg h0]
      push_neg at h0
      rw [signalRow_eta x _ (by rw [hopen, h0])]
  · intro hdir
    rw [hdir]
    exact resolveSignal_long x.target_price x.stop_loss q
  · intro hdir
    rw [hdir]
    exact resolveSignal_short x.target_price x.stop_loss q

/-- Witness for C2: a long signal (entry 100, target 110, stop 90) with
fetched price 111 resolves to hit-target. -/
theorem signal_resolution_rule_witness :
    (check_signal_outcomes (fun s => if s = "BTCUSDT" then some (111 : ℚ) else none)
        [⟨1, "BTCUSDT", "long", 100, 110, 90, false, 0⟩]).filter (fun b => b.id = 1) =
      [⟨1, "BTCUSDT", "long", 100, 110, 90, false, 1⟩] :=
  ((signal_resolution_rule (fun s => if s = "BTCUSDT" then some (111 : ℚ) else none)
      [⟨1, "BTCUSDT", "long", 100, 110, 90, false, 0⟩]
      ⟨1, "BTCUSDT", "long", 100, 110, 90, false, 0⟩ 111
      (by decide) (by decide) (by decide) (by decide)).1).trans (by decide)

/-- Claim C3: a signal whose outcome is already non-open is excluded by
the open-only read filter and its row is exactly unchanged by any
further run of `check_signal_outcomes`. -/
theorem signal_resolution_monotone (prices : String → Option ℚ) (sigs : List SignalRow)
    (t : SignalRow) (hnd : (sigs.map SignalRow.id).Nodup) (ht : t ∈ sigs)
    (hterm : t.hit_target ≠ 0) :
    (check_signal_outcomes prices sigs).filter (fun b => b.id = t.id) = [t] := by
  rw [check_signal_outcomes_filter_id prices sigs t.id hnd,
      filter_signal_id_singleton t sigs hnd ht]
  simp only [List.map_cons, List.map_nil]
  rw [applyResolved_member_terminal prices sigs t hnd ht hterm]

/-- Witness for C3: a signal already marked hit-target keeps its row
unchanged even when the current price would cross the stop level. -/
theorem signal_resolution_monotone_witness :
    (check_signal_outcomes (fun s => if s = "BTCUSDT" then some (80 : ℚ) else none)
        [⟨1, "BTCUSDT", "long", 100, 110, 90, false, 1⟩]).filter (fun b => b.id = 1) =
      [⟨1, "BTCUSDT", "long", 100, 110, 90, false, 1⟩] :=
  signal_resolution_monotone (fun s => if s = "BTCUSDT" then some (80 : ℚ) else none)
    [⟨1, "BTCUSDT", "long", 100, 110, 90, false, 1⟩]
    ⟨1, "BTCUSDT", "long", 100, 110, 90, false, 1⟩
    (by decide) (by decide) (by decide)

theorem filter_drop_absent (al : List AlertRow) (a : AlertRow) (q : AlertRow → Bool)
    (hnd : (al.map AlertRow.id).Nodup) (ha : a ∈ al) (hqa : q a = false) :
    (al.filter (fun b => b.id ≠ a.id)).filter q = al.filter q := by
  rw [List.filter_filter]
  refine List.filter_congr ?_
  intro b hb
  cases hq : q b with
  | false => simp [hq]
  | true =>
    have hne : b.id ≠ a.id := by
      intro he
      have hba : b = a := List.inj_on_of_nodup_map hnd hb ha he
      rw [hba] at hq
      rw [hq] at hqa
      exact absurd hqa (by decide)
    simp [hq, hne]

theorem check_signal_outcomes_drop_id (prices : String → Option ℚ)
    (sigs : List SignalRow) (i : Nat) (hnd : (sigs.map SignalRow.id).Nodup) :
    check_signal_outcomes prices (sigs.filter fun b => b.id ≠ i) =
      (check_signal_outcomes prices sigs).filter (fun b => b.id ≠ i) := by
  have hnd2 : ((sigs.filter fun b => b.id ≠ i).map SignalRow.id).Nodup :=
    List.Nodup.sublist (List.Sublist.map SignalRow.id (List.filter_sublist sigs)) hnd
  calc check_signal_outcomes prices (sigs.filter fun b => b.id ≠ i)
      = (sigs.filter fun b => b.id ≠ i).map
          (applyResolved prices ((sigs.filter fun b => b.id ≠ i).filter fun s => s.hit_target = 0)) :=
        check_signal_outcomes_closed prices _ hnd2
    _ = (sigs.filter fun b => b.id ≠ i).map
          (applyResolved prices (sigs.filter fun s => s.hit_target = 0)) := by
        refine List.map_congr_left ?_
        intro x hx
        have hxs : x ∈ sigs := (List.mem_filter.mp hx).1
        by_cases hopen : x.hit_target = 0
        · rw [applyResolved_member_open prices _ x hnd2 hx hopen,
              applyResolved_member_open prices sigs x hnd hxs hopen]
        · rw [applyResolved_member_terminal prices _ x hnd2 hx hopen,
              applyResolved_member_terminal prices sigs x hnd hxs hopen]
    _ = ((sigs.map (applyResolved prices (sigs.filter fun s => s.hit_target = 0))).filter
          fun b => b.id ≠ i) := by
        rw [List.filter_map]
        congr 1
        refine (List.filter_congr ?_).symm
        intro b _
        simp [Function.comp, applyResolved_id]
    _ = (check_signal_outcomes prices sigs).filter (fun b => b.id ≠ i) := by
        rw [check_signal_outcomes_closed prices sigs hnd]

/-- Claim C4: for an alert whose symbol has a fetched price, one run of
`check_alerts` attempts its notification iff (direction above and
price strictly greater than target) or (direction below and price
strictly less), and in particular a price exactly equal to the target
never triggers. -/
theorem alert_trigger_strict_iff (prices : String → Option ℚ) (sendOk : Nat → Bool)
    (al : List AlertRow) (a : AlertRow) (q : ℚ)
    (hnd : (al.map AlertRow.id).Nodup) (ha : a ∈ al) (hq : prices a.symbol = some q) :
    (a.id ∈ (check_alerts prices sendOk al).attempted ↔
      ((a.direction = "above" ∧ a.target_price < q) ∨
       (a.direction = "below" ∧ q < a.target_price))) ∧
    (q = a.target_price → a.id ∉ (check_alerts prices sendOk al).attempted) := by
  have hatt : (check_alerts prices sendOk al).attempted =
      (al.filter (alertFires prices)).map AlertRow.id := by
    unfold check_alerts
    rw [foldl_alerts_attempted]
    rfl
  have hfires : alertFires prices a = alertTriggered a q := by
    unfold alertFires
    rw [hq]
  constructor
  · rw [hatt, alert_id_mem_filter_map al a _ hnd ha, hfires]
    exact alertTriggered_iff a q
  · intro heq
    rw [hatt, alert_id_mem_filter_map al a _ hnd ha, hfires]
    intro htrig
    rcases (alertTriggered_iff a q).mp htrig with ⟨_, hlt⟩ | ⟨_, hlt⟩ <;>
      rw [heq] at hlt <;> exact lt_irrefl _ hlt

/-- Witness for C4: an above-alert at 50000 with the price exactly
50000 is not triggered. -/
theorem alert_trigger_strict_iff_witness :
    (1 : Nat) ∉ (check_alerts (fun s => if s = "BTCUSDT" then some (50000 : ℚ) else none)
      (fun _ => true) [⟨1, 5, "BTCUSDT", 50000, "above"⟩]).attempted :=
  (alert_trigger_strict_iff (fun s => if s = "BTCUSDT" then some (50000 : ℚ) else none)
    (fun _ => true) [⟨1, 5, "BTCUSDT", 50000, "above"⟩] ⟨1, 5, "BTCUSDT", 50000, "above"⟩
    50000 (by decide) (by decide) (by decide)).2 (by decide)

/-- Claim C5: a triggered alert's row is deleted only after its
notification is delivered successfully; if delivery raises, the row is
still present after the run (ready for retry on the next cycle). -/
theorem alert_delete_only_after_delivery (prices : String → Option ℚ)
    (sendOk : Nat → Bool) (al : List AlertRow) (a : AlertRow) (ha : a ∈ al) :
    (sendOk a.id = false → a ∈ (check_alerts prices sendOk al).alerts) ∧
    (a ∉ (check_alerts prices sendOk al).alerts →
      a.id ∈ (check_alerts prices sendOk al).delivered) := by
  have hmem : ∀ x : AlertRow, x ∈ (check_alerts prices sendOk al).alerts ↔
      x ∈ al ∧ ∀ b ∈ al, alertFires prices b = true → sendOk b.id = true → x.id ≠ b.id := by
    intro x
    unfold check_alerts
    rw [foldl_alerts_mem_table]
  have hdel : (check_alerts prices sendOk al).delivered =
      (al.filter (fun b => alertFires prices b && sendOk b.id)).map AlertRow.id := by
    unfold check_alerts
    rw [foldl_alerts_delivered]
    rfl
  constructor
  · intro hok
    rw [hmem]
    refine ⟨ha, ?_⟩
    intro b hb hf hbok hid
    rw [← hid] at hbok
    rw [hok] at hbok
    exact absurd hbok (by decide)
  · intro hnot
    rw [hmem] at hnot
    push_neg at hnot
    obtain ⟨b, hb, hf, hbok, hid⟩ := hnot ha
    rw [hdel, hid]
    exact List.mem_map_of_mem AlertRow.id (List.mem_filter.mpr ⟨hb, by rw [hf, hbok]; rfl⟩)

/-- Witness for C5: a triggered above-alert whose notification fails is
still in the table after the run. -/
theorem alert_delete_only_after_delivery_witness :
    (⟨1, 5, "BTCUSDT", 50000, "above"⟩ : AlertRow) ∈
      (check_alerts (fun s => if s = "BTCUSDT" then some (60000 : ℚ) else none)
        (fun _ => false) [⟨1, 5, "BTCUSDT", 50000, "above"⟩]).alerts :=
  (alert_delete_only_after_delivery (fun s => if s = "BTCUSDT" then some (60000 : ℚ) else none)
    (fun _ => false) [⟨1, 5, "BTCUSDT", 50000, "above"⟩] ⟨1, 5, "BTCUSDT", 50000, "above"⟩
    (by decide)).1 (by decide)

/-- Claim C6: a row whose symbol/pair is absent from the fetched batch
is completely untouched by its reconciliation job — the alert is
neither triggered nor deleted, the open signal's row is unchanged — and
its presence does not alter how the other rows of the same batch are
processed. -/
theorem missing_symbol_frame (pa : String → Option ℚ) (sendOk : Nat → Bool)
    (al : List AlertRow) (a : AlertRow) (ps : String → Option ℚ)
    (sigs : List SignalRow) (s : SignalRow)
    (hnda : (al.map AlertRow.id).Nodup) (ha : a ∈ al) (hpa : pa a.symbol = none)
    (hnds : (sigs.map SignalRow.id).Nodup) (hs : s ∈ sigs) (hsopen : s.hit_target = 0)
    (hps : ps s.pair = none) :
    (a ∈ (check_alerts pa sendOk al).alerts) ∧
    (a.id ∉ (check_alerts pa sendOk al).attempted) ∧
    ((check_alerts pa sendOk al).attempted =
      (check_alerts pa sendOk (al.filter fun b => b.id ≠ a.id)).attempted) ∧
    ((check_alerts pa sendOk al).delivered =
      (check_alerts pa sendOk (al.filter fun b => b.id ≠ a.id)).delivered) ∧
    ((check_signal_outcomes ps sigs).filter (fun b => b.id = s.id) = [s]) ∧
    (check_signal_outcomes ps (sigs.filter fun b => b.id ≠ s.id) =
      (check_signal_outcomes ps sigs).filter (fun b => b.id ≠ s.id)) := by
  have hfa : alertFires pa a = false := by
    unfold alertFires
    rw [hpa]
  have hatt : ∀ l : List AlertRow, (check_alerts pa sendOk l).attempted =
      (l.filter (alertFires pa)).map AlertRow.id := by
    intro l
    unfold check_alerts
    rw [foldl_alerts_attempted]
    rfl
  have hdel : ∀ l : List AlertRow, (check_alerts pa sendOk l).delivered =
      (l.filter (fun b => alertFires pa b && sendOk b.id)).map AlertRow.id := by
    intro l
    unfold check_alerts
    rw [foldl_alerts_delivered]
    rfl
  refine ⟨?_, ?_, ?_, ?_, ?_, ?_⟩
  · unfold check_alerts
    rw [foldl_alerts_mem_table]
    refine ⟨ha, ?_⟩
    intro b hb hf _ hid
    have hba : b = a := List.inj_on_of_nodup_map hnda hb ha hid.symm
    rw [hba, hfa] at hf
    exact absurd hf (by decide)
  · rw [hatt, alert_id_mem_filter_map al a _ hnda ha, hfa]
    decide
  · rw [hatt, hatt, filter_drop_absent al a (alertFires pa) hnda ha hfa]
  · rw [hdel, hdel,
        filter_drop_absent al a (fun b => alertFires pa b && sendOk b.id) hnda ha
          (by simp [hfa])]
  · rw [check_signal_outcomes_filter_id ps sigs s.id hnds,
        filter_signal_id_singleton s sigs hnds hs]
    simp only [List.map_cons, List.map_nil]
    rw [applyResolved_member_open ps sigs s hnds hs hsopen]
    have hsig : sigOutcome ps s = 0 := by
      unfold sigOutcome
      rw [hps]
    rw [hsig]
    simp
  · exact check_signal_outcomes_drop_id ps sigs s.id hnds

/-- Witness for C6: with an empty price batch, the single alert row
survives and the single open signal row is unchanged. -/
theorem missing_symbol_frame_witness :
    ((⟨1, 5, "ETHUSDT", 2000, "above"⟩ : AlertRow) ∈
      (check_alerts (fun _ => none) (fun _ => true)
        [⟨1, 5, "ETHUSDT", 2000, "above"⟩]).alerts) ∧
    ((check_signal_outcomes (fun _ => none)
        [⟨2, "ETHUSDT", "long", 100, 110, 90, false, 0⟩]).filter (fun b => b.id = 2) =
      [⟨2, "ETHUSDT", "long", 100, 110, 90, false, 0⟩]) :=
  ⟨(missing_symbol_frame (fun _ => none) (fun _ => true) [⟨1, 5, "ETHUSDT", 2000, "above"⟩]
      ⟨1, 5, "ETHUSDT", 2000, "above"⟩ (fun _ => none)
      [⟨2, "ETHUSDT", "long", 100, 110, 90, false, 0⟩]
      ⟨2, "ETHUSDT", "long", 100, 110, 90, false, 0⟩
      (by decide) (by decide) (by decide) (by decide) (by decide) (by decide) (by decide)).1,
   (missing_symbol_frame (fun _ => none) (fun _ => true) [⟨1, 5, "ETHUSDT", 2000, "above"⟩]
      ⟨1, 5, "ETHUSDT", 2000, "above"⟩ (fun _ => none)
      [⟨2, "ETHUSDT", "long", 100, 110, 90, false, 0⟩]
      ⟨2, "ETHUSDT", "long", 100, 110, 90, false, 0⟩
      (by decide) (by decide) (by decide) (by decide) (by decide) (by decide) (by decide)).2.2.2.2.1⟩

/-- Claim C7: `_check_vip_status` returns true for an admin-listed id
regardless of the subscriptions table, and otherwise exactly when some
subscription row for the user has its end date at or after now; the
embedding is a pure read of the table. -/
theorem vip_status_spec (admin_ids : List Int) (subs : List SubRow) (now u : Int) :
    check_vip_status admin_ids subs now u = true ↔
      u ∈ admin_ids ∨ ∃ r ∈ subs, r.user_id = u ∧ now ≤ r.end_date := by
  unfold check_vip_status
  by_cases h : u ∈ admin_ids
  · simp [h]
  · simp [h, List.any_eq_true]

/-- Counterexample to claim C8 as stated: `vip_grant` performs no sign
check on `days` (the handler accepts any `int`), so granting `-1` days
writes `end_date` before `now` and the user is not entitled
immediately afterwards. -/
theorem vip_grant_negative_days_not_entitled :
    check_vip_status [] (vip_grant 0 7 (-1) ⟨[], []⟩).subscriptions 0 7 = false := by
  decide

/-- Claim C8 (amended: for every nonnegative number of days): the grant
writes no Payment row, leaves the user with exactly one Subscription
row carrying start `now`, end `now + d` days and the synthetic payment
reference `"admin_grant"`, and the user is entitled immediately
afterwards. -/
theorem vip_grant_entitles (db : DB) (admin_ids : List Int) (now u d : Int)
    (hd : 0 ≤ d) :
    (vip_grant now u d db).payments = db.payments ∧
    (vip_grant now u d db).subscriptions.filter (fun x => x.user_id = u) =
      [⟨u, "VIP Grant", now, now + d * 86400, "admin_grant", false⟩] ∧
    check_vip_status admin_ids (vip_grant now u d db).subscriptions now u = true := by
  refine ⟨rfl, ?_, ?_⟩
  · exact upsertSubscription_self db.subscriptions
      ⟨u, "VIP Grant", now, now + d * 86400, "admin_grant", false⟩
  · unfold check_vip_status
    by_cases hadm : u ∈ admin_ids
    · simp [hadm]
    · rw [if_neg hadm, List.any_eq_true]
      refine ⟨⟨u, "VIP Grant", now, now + d * 86400, "admin_grant", false⟩, ?_, ?_⟩
      · exact List.mem_append_right _ (List.mem_singleton_self _)
      · simp only [decide_eq_true_eq]
        refine ⟨by trivial, ?_⟩
        have h86400 : 0 ≤ d * 86400 := mul_nonneg hd (by norm_num)
        linarith

/-- Witness for C8 (amended): a 30-day grant to user 7 entitles them at
once. -/
theorem vip_grant_entitles_witness :
    check_vip_status [] (vip_grant 0 7 30 ⟨[], []⟩).subscriptions 0 7 = true :=
  (vip_grant_entitles ⟨[], []⟩ [] 0 7 30 (by decide)).2.2

/-- Claim C9: the only writes the source performs on `subscriptions`
are the two `INSERT OR REPLACE` statements (payment confirmation at
line 711 and admin grant at line 977), both embedded as
`upsertSubscription`, and the notified-flag `UPDATE` (line 1544,
`set_notified`). The upsert replaces the user's single row instead of
duplicating it, and each write preserves at-most-one-row-per-user. -/
theorem subscriptions_one_row_per_user (subs : List SubRow) (r : SubRow) (u : Int)
    (h : (subs.map SubRow.user_id).Nodup) :
    ((upsertSubscription subs r).map SubRow.user_id).Nodup ∧
    (upsertSubscription subs r).filter (fun x => x.user_id = r.user_id) = [r] ∧
    ((set_notified subs u).map SubRow.user_id).Nodup := by
  refine ⟨upsertSubscription_nodup subs r h, upsertSubscription_self subs r, ?_⟩
  rw [set_notified_map_uid]
  exact h

/-- Witness for C9: a renewal for user 1 replaces the existing row. -/
theorem subscriptions_one_row_per_user_witness :
    (upsertSubscription [⟨1, "1 Month VIP", 0, 10, "inv1", false⟩]
      ⟨1, "3 Months VIP", 5, 50, "inv2", false⟩).filter (fun x => x.user_id = 1) =
      [⟨1, "3 Months VIP", 5, 50, "inv2", false⟩] :=
  (subscriptions_one_row_per_user [⟨1, "1 Month VIP", 0, 10, "inv1", false⟩]
    ⟨1, "3 Months VIP", 5, 50, "inv2", false⟩ 1 (by decide)).2.1

/-- Claim C10: `/removeposition` and `/removealert` delete only a row
that both has the requested id and belongs to the calling user; rows of
other users are untouched, and when no such owned row exists the table
is unchanged and the handler reports not-found. -/
theorem remove_row_ownership (portfolio : List PositionRow) (al : List AlertRow)
    (u : Int) (i j : Nat) :
    ((remove_position portfolio u i).1.filter (fun r => r.user_id ≠ u) =
      portfolio.filter (fun r => r.user_id ≠ u)) ∧
    (∀ r ∈ portfolio, r ∉ (remove_position portfolio u i).1 → r.id = i ∧ r.user_id = u) ∧
    ((∀ r ∈ portfolio, ¬(r.id = i ∧ r.user_id = u)) →
      (remove_position portfolio u i).1 = portfolio ∧
      (remove_position portfolio u i).2 = false) ∧
    ((remove_alert al u j).1.filter (fun r => r.user_id ≠ u) =
      al.filter (fun r => r.user_id ≠ u)) ∧
    (∀ r ∈ al, r ∉ (remove_alert al u j).1 → r.id = j ∧ r.user_id = u) ∧
    ((∀ r ∈ al, ¬(r.id = j ∧ r.user_id = u)) →
      (remove_alert al u j).1 = al ∧ (remove_alert al u j).2 = false) := by
  refine ⟨?_, ?_, ?_, ?_, ?_, ?_⟩
  · show ((portfolio.filter fun r => ¬(r.id = i ∧ r.user_id = u)).filter
        fun r => r.user_id ≠ u) = portfolio.filter (fun r => r.user_id ≠ u)
    rw [List.filter_filter]
    refine List.filter_congr ?_
    intro r _
    by_cases hu : r.user_id = u <;> simp [hu]
  · intro r hr hnot
    by_contra hcon
    apply hnot
    show r ∈ portfolio.filter fun r => ¬(r.id = i ∧ r.user_id = u)
    refine List.mem_filter.mpr ⟨hr, ?_⟩
    simp only [decide_eq_true_eq]
    exact hcon
  · intro hall
    constructor
    · show (portfolio.filter fun r => ¬(r.id = i ∧ r.user_id = u)) = portfolio
      rw [List.filter_eq_self]
      intro r hr
      simp only [decide_eq_true_eq]
      exact hall r hr
    · show decide (0 < portfolio.countP fun r => decide (r.id = i ∧ r.user_id = u)) = false
      have hc : portfolio.countP (fun r => decide (r.id = i ∧ r.user_id = u)) = 0 :=
        List.countP_eq_zero.mpr (fun r hr => by
          simp only [decide_eq_true_eq]
          exact hall r hr)
      rw [hc]
      rfl
  · show ((al.filter fun r => ¬(r.id = j ∧ r.user_id = u)).filter
        fun r => r.user_id ≠ u) = al.filter (fun r => r.user_id ≠ u)
    rw [List.filter_filter]
    refine List.filter_congr ?_
    intro r _
    by_cases hu : r.user_id = u <;> simp [hu]
  · intro r hr hnot
    by_contra hcon
    apply hnot
    show r ∈ al.filter fun r => ¬(r.id = j ∧ r.user_id = u)
    refine List.mem_filter.mpr ⟨hr, ?_⟩
    simp only [decide_eq_true_eq]
    exact hcon
  · intro hall
    constructor
    · show (al.filter fun r => ¬(r.id = j ∧ r.user_id = u)) = al
      rw [List.filter_eq_self]
      intro r hr
      simp only [decide_eq_true_eq]
      exact hall r hr
    · show decide (0 < al.countP fun r => decide (r.id = j ∧ r.user_id = u)) = false
      have hc : al.countP (fun r => decide (r.id = j ∧ r.user_id = u)) = 0 :=
        List.countP_eq_zero.mpr (fun r hr => by
          simp only [decide_eq_true_eq]
          exact hall r hr)
      rw [hc]
      rfl

/-- Witness for C10: user 6 asking to remove position 1, which belongs
to user 5, leaves the table unchanged and reports not-found. -/
theorem remove_row_ownership_witness :
    (remove_position [⟨1, 5, "BTCUSDT", 2, 100⟩] 6 1).1 = [⟨1, 5, "BTCUSDT", 2, 100⟩] ∧
    (remove_position [⟨1, 5, "BTCUSDT", 2, 100⟩] 6 1).2 = false :=
  (remove_row_ownership [⟨1, 5, "BTCUSDT", 2, 100⟩] [] 6 1 1).2.2.1 (by decide)
